import Mathlib

/-!
Shallow embedding of the `usbio24` Python package (files `usbio24/io.py` and
`usbio24/output.py`), which drives a "USB I/O 24" board over a serial line.

Modelling conventions:
* The transport is modelled by the list of bytes (as `Nat` values) an
  operation writes, in order.  Every write-only operation returns
  `List Nat × Option UsbError`: the bytes it wrote before returning or
  raising, together with the exception it raised (if any).  `read_port`
  additionally returns the decoded value, so it returns
  `List Nat × Except UsbError Nat`, the response byte being a parameter.
* Python exception classes `InvalidMode`, `InvalidPort`, `InvalidPin`,
  `InvalidData` and the low-level `struct.error` become the constructors of
  `UsbError`.
* Port designators are single characters (`Char`), as every call site in the
  repository passes a one-character string; `str.upper`/`str.lower` become
  `Char.toUpper`/`Char.toLower`.
* Python integers are `ℤ`.  `RelayModule.set_state` accumulates
  `2 ** (relay - 1)` without validating `relay`; under Python 2, `2 ** n`
  is an exact integer for `n ≥ 0` and the float `2.0 ** n` for `n < 0`,
  which is exactly representable for the magnitudes reachable here, so the
  accumulator is modelled exactly by `ℚ` (`pyPow2`).  Python's `int()`
  truncation toward zero becomes `intTrunc`.
* `struct.pack('B', x)` raises `struct.error` unless `0 ≤ x ≤ 255`; this
  range check is `packB`.  `pack('c', s)` on the one-character port strings
  used here always succeeds and contributes the character's byte.
-/

/-- Exception classes of `usbio24/io.py`, plus `structError` for the
`struct.error` raised by `struct.pack` on out-of-range byte arguments. -/
inductive UsbError : Type
  | invalidMode
  | invalidPort
  | invalidPin
  | invalidData
  | structError
deriving DecidableEq, Repr

/-- Python `int()` truncation toward zero on an exact rational value:
`int(q)` for the int/float arguments this codebase produces. -/
def intTrunc (q : ℚ) : ℤ :=
  if 0 ≤ q then ⌊q⌋ else ⌈q⌉

/-- Python 2 `2 ** (n)`: an exact integer for `n ≥ 0`, the float
`1 / 2 ** (-n)` for `n < 0` (exactly representable as a rational for the
magnitudes reachable in this codebase). -/
def pyPow2 (n : ℤ) : ℚ :=
  if 0 ≤ n then ((2 ^ n.toNat : ℤ) : ℚ) else 1 / ((2 ^ (-n).toNat : ℤ) : ℚ)

/-- `struct.pack('B', x)`: one unsigned byte, raising `struct.error` when
`x` is outside `[0, 255]`. -/
def packB (x : ℤ) : Except UsbError Nat :=
  if 0 ≤ x ∧ x ≤ 255 then .ok x.toNat else .error .structError

/-- `IOModule._validate_port`: `port.upper()` must be `'A'`, `'B'` or `'C'`,
else `InvalidPort` is raised. -/
def validate_port (port : Char) : Option UsbError :=
  if port.toUpper ∈ ['A', 'B', 'C'] then none else some .invalidPort

/-- `IOModule._validate_pin`: pins outside `[1, 8]` raise `InvalidPin`. -/
def validate_pin (pin : ℤ) : Option UsbError :=
  if pin < 1 ∨ pin > 8 then some .invalidPin else none

/-- `IOModule._validate_data`: `int(data)` outside `[0, 255]` raises
`InvalidData`. -/
def validate_data (data : ℚ) : Option UsbError :=
  if intTrunc data < 0 ∨ intTrunc data > 255 then some .invalidData else none

/-- `IOModule.set_mode`: modes other than 1 and 2 raise `InvalidMode`;
otherwise the single byte `pack('B', mode)` is written. -/
def set_mode (mode : ℤ) : List Nat × Option UsbError :=
  if mode ∉ ([1, 2] : List ℤ) then ([], some .invalidMode)
  else
    match packB mode with
    | .error e => ([], some e)
    | .ok b => ([b], none)

/-- `IOModule.__init__`: opens the serial device and unconditionally calls
`self.set_mode(1)`; its transport effect is exactly that of `set_mode 1`. -/
def iomodule_init : List Nat × Option UsbError :=
  set_mode 1

/-- `IOModule.write_port`: validates the port, then the data, then writes
`pack('cB', port.upper(), int(data))` — two bytes. -/
def write_port (port : Char) (data : ℚ) : List Nat × Option UsbError :=
  match validate_port port with
  | some e => ([], some e)
  | none =>
    match validate_data data with
    | some e => ([], some e)
    | none =>
      match packB (intTrunc data) with
      | .error e => ([], some e)
      | .ok b => ([port.toUpper.toNat, b], none)

/-- `IOModule.read_port`: validates the port, writes the single byte
`port.lower()`, reads one byte back and decodes it with `unpack('B', ·)`.
The byte returned by the transport is the parameter `response`. -/
def read_port (port : Char) (response : Nat) : List Nat × Except UsbError Nat :=
  match validate_port port with
  | some e => ([], .error e)
  | none => ([port.toLower.toNat], .ok response)

/-- The base offset `pin_int` starts from in `set_pin_high` / `set_pin_low`:
0 for port A, 8 for port B, 16 for port C (the final branch is unreachable
because `_validate_port` ran first; it is given the arbitrary value 0). -/
def portBase (port : Char) : ℤ :=
  if port.toUpper = 'A' then 0
  else if port.toUpper = 'B' then 8
  else if port.toUpper = 'C' then 16
  else 0

/-- The spec's Global Pin Index: the byte argument of the `H`/`L` commands,
computed in `set_pin_high` / `set_pin_low` as the port base plus `pin - 1`. -/
def globalPinIndex (port : Char) (pin : ℤ) : ℤ :=
  portBase port + (pin - 1)

/-- `IOModule.set_pin_high`: validates port and pin, then writes
`pack('cB', 'H', pin_int)` with `pin_int` the global pin index. -/
def set_pin_high (port : Char) (pin : ℤ) : List Nat × Option UsbError :=
  match validate_port port with
  | some e => ([], some e)
  | none =>
    match validate_pin pin with
    | some e => ([], some e)
    | none =>
      match packB (globalPinIndex port pin) with
      | .error e => ([], some e)
      | .ok b => (['H'.toNat, b], none)

/-- `IOModule.set_pin_low`: validates port and pin, then writes
`pack('cB', 'L', pin_int)` with `pin_int` the global pin index. -/
def set_pin_low (port : Char) (pin : ℤ) : List Nat × Option UsbError :=
  match validate_port port with
  | some e => ([], some e)
  | none =>
    match validate_pin pin with
    | some e => ([], some e)
    | none =>
      match packB (globalPinIndex port pin) with
      | .error e => ([], some e)
      | .ok b => (['L'.toNat, b], none)

/-- `IOModule._set_pin_direction_raw`: validates the port and writes
`pack('ccB', '!', port.upper(), arg)` — three bytes, with the `'B'` field
raising `struct.error` when `arg` is outside `[0, 255]` (nothing is written
in that case, since `pack` fails before `driver.write`). -/
def set_pin_direction_raw (port : Char) (arg : ℤ) : List Nat × Option UsbError :=
  match validate_port port with
  | some e => ([], some e)
  | none =>
    match packB arg with
    | .error e => ([], some e)
    | .ok b => (['!'.toNat, port.toUpper.toNat, b], none)

/-- The accumulation loop of `IOModule.set_pin_direction`: starting from
`acc`, each pin is validated (raising `InvalidPin` on the first bad one)
and `2 ** (pin - 1)` is added. -/
def pinMaskLoop (acc : ℤ) : List ℤ → Except UsbError ℤ
  | [] => .ok acc
  | pin :: rest =>
    match validate_pin pin with
    | some e => .error e
    | none => pinMaskLoop (acc + 2 ^ (pin - 1).toNat) rest

/-- `IOModule.set_pin_direction`: validates the port, folds the input-pin
list into the direct mask starting from 0, then calls the raw form. -/
def set_pin_direction (port : Char) (input_pins : List ℤ) : List Nat × Option UsbError :=
  match validate_port port with
  | some e => ([], some e)
  | none =>
    match pinMaskLoop 0 input_pins with
    | .error e => ([], some e)
    | .ok pin_int => set_pin_direction_raw port pin_int

/-- `IOModule._port_pull_up_raw`: validates the port, writes the selector
byte `'#'`, THEN calls `write_port port arg` — so the selector byte is on
the wire before `write_port`'s own validation runs. -/
def port_pull_up_raw (port : Char) (arg : ℚ) : List Nat × Option UsbError :=
  match validate_port port with
  | some e => ([], some e)
  | none =>
    ('#'.toNat :: (write_port port arg).1, (write_port port arg).2)

/-- The accumulation loop shared verbatim by `port_pull_up`,
`set_threshold_high` and `schmitt_trigger`: starting from `acc` (255 at the
call sites), each pin is validated and `2 ** (pin - 1)` is subtracted. -/
def invertedMaskLoop (acc : ℤ) : List ℤ → Except UsbError ℤ
  | [] => .ok acc
  | pin :: rest =>
    match validate_pin pin with
    | some e => .error e
    | none => invertedMaskLoop (acc - 2 ^ (pin - 1).toNat) rest

/-- `IOModule.port_pull_up`: folds the pin list into the inverted mask
starting from 255, then calls the raw form (no port validation of its own
before the loop). -/
def port_pull_up (port : Char) (pins : List ℤ) : List Nat × Option UsbError :=
  match invertedMaskLoop 255 pins with
  | .error e => ([], some e)
  | .ok pin_int => port_pull_up_raw port ((pin_int : ℚ))

/-- `IOModule._set_threshold_raw`: like `_port_pull_up_raw` with selector
byte `'@'` written before `write_port` runs. -/
def set_threshold_raw (port : Char) (arg : ℚ) : List Nat × Option UsbError :=
  match validate_port port with
  | some e => ([], some e)
  | none =>
    ('@'.toNat :: (write_port port arg).1, (write_port port arg).2)

/-- `IOModule.set_threshold_high`: inverted-mask fold from 255, then the
raw threshold form. -/
def set_threshold_high (port : Char) (pins : List ℤ) : List Nat × Option UsbError :=
  match invertedMaskLoop 255 pins with
  | .error e => ([], some e)
  | .ok pin_int => set_threshold_raw port ((pin_int : ℚ))

/-- `IOModule._schmitt_trigger_raw`: like `_port_pull_up_raw` with selector
byte `'$'` written before `write_port` runs. -/
def schmitt_trigger_raw (port : Char) (arg : ℚ) : List Nat × Option UsbError :=
  match validate_port port with
  | some e => ([], some e)
  | none =>
    ('$'.toNat :: (write_port port arg).1, (write_port port arg).2)

/-- `IOModule.schmitt_trigger`: inverted-mask fold from 255, then the raw
Schmitt-trigger form. -/
def schmitt_trigger (port : Char) (pins : List ℤ) : List Nat × Option UsbError :=
  match invertedMaskLoop 255 pins with
  | .error e => ([], some e)
  | .ok pin_int => schmitt_trigger_raw port ((pin_int : ℚ))

/-- The state of a `RelayModule` instance from `usbio24/output.py`: only the
bound (uppercased) port matters to the transport behaviour. -/
structure RelayModule : Type where
  port : Char
deriving DecidableEq, Repr

/-- `RelayModule.__init__`: stores `port.upper()` and calls
`io.set_pin_direction(self.port, [])`; returns the constructed instance and
the construction's transport effect. -/
def relayModule_init (port : Char) : RelayModule × (List Nat × Option UsbError) :=
  (⟨port.toUpper⟩, set_pin_direction port.toUpper [])

/-- The accumulation loop of `RelayModule.set_state`: NO validation; each
relay contributes `2 ** (relay - 1)`, a float when `relay < 1` (Python 2),
modelled exactly over `ℚ` by `pyPow2`. -/
def relayMaskLoop (acc : ℚ) : List ℤ → ℚ
  | [] => acc
  | relay :: rest => relayMaskLoop (acc + pyPow2 (relay - 1)) rest

/-- `RelayModule.set_state`: folds the relay list into `relay_int` starting
from 0 (no per-relay validation) and calls
`io.write_port(self.port, relay_int)`. -/
def relay_set_state (m : RelayModule) (activated_relays : List ℤ) : List Nat × Option UsbError :=
  write_port m.port (relayMaskLoop 0 activated_relays)

/-- `RelayModule.reset`: `self.set_state()` with the default empty list. -/
def relay_reset (m : RelayModule) : List Nat × Option UsbError :=
  relay_set_state m []

/-- The direct mask `Σ 2 ^ (pin − 1)` over a pin list, the value
`pinMaskLoop 0` computes when every pin is valid. -/
def sumMask (pins : List ℤ) : ℤ :=
  (pins.map (fun p => (2 : ℤ) ^ (p - 1).toNat)).sum

/-- A port whose uppercase form is a valid designator passes
`_validate_port` silently. -/
theorem validate_port_eq_none {port : Char} (h : port.toUpper ∈ ['A', 'B', 'C']) :
    validate_port port = none := by
  simp [validate_port, h]

/-- A port whose uppercase form is not a valid designator fails
`_validate_port` with `InvalidPort`. -/
theorem validate_port_eq_some {port : Char} (h : port.toUpper ∉ ['A', 'B', 'C']) :
    validate_port port = some .invalidPort := by
  unfold validate_port
  rw [if_neg h]

/-- A pin in `[1, 8]` passes `_validate_pin` silently. -/
theorem validate_pin_eq_none {pin : ℤ} (h1 : 1 ≤ pin) (h8 : pin ≤ 8) :
    validate_pin pin = none := by
  simp only [validate_pin, ite_eq_right_iff]
  omega

/-- A pin outside `[1, 8]` fails `_validate_pin` with `InvalidPin`. -/
theorem validate_pin_eq_some {pin : ℤ} (h : pin < 1 ∨ 8 < pin) :
    validate_pin pin = some .invalidPin := by
  unfold validate_pin
  rw [if_pos (by omega)]

/-- Python `int()` of an integer value is that integer. -/
theorem intTrunc_intCast (n : ℤ) : intTrunc ((n : ℚ)) = n := by
  unfold intTrunc
  split <;> simp

/-- `_validate_data` accepts integer data in `[0, 255]`. -/
theorem validate_data_int_ok {n : ℤ} (h0 : 0 ≤ n) (h255 : n ≤ 255) :
    validate_data ((n : ℚ)) = none := by
  unfold validate_data
  rw [intTrunc_intCast, if_neg (by omega)]

/-- `_validate_data` rejects integer data outside `[0, 255]`. -/
theorem validate_data_int_bad {n : ℤ} (h : n < 0 ∨ 255 < n) :
    validate_data ((n : ℚ)) = some .invalidData := by
  unfold validate_data
  rw [intTrunc_intCast, if_pos (by omega)]

/-- `pack('B', ·)` succeeds exactly on `[0, 255]`. -/
theorem packB_ok {n : ℤ} (h0 : 0 ≤ n) (h255 : n ≤ 255) : packB n = .ok n.toNat := by
  unfold packB
  rw [if_pos ⟨h0, h255⟩]

/-- `pack('B', ·)` raises `struct.error` outside `[0, 255]`. -/
theorem packB_bad {n : ℤ} (h : n < 0 ∨ 255 < n) : packB n = .error .structError := by
  unfold packB
  rw [if_neg (by omega)]

/-- `write_port` on a valid port and in-range integer data writes exactly
the two-byte frame and raises nothing. -/
theorem write_port_int_ok {port : Char} {n : ℤ} (hport : port.toUpper ∈ ['A', 'B', 'C'])
    (h0 : 0 ≤ n) (h255 : n ≤ 255) :
    write_port port ((n : ℚ)) = ([port.toUpper.toNat, n.toNat], none) := by
  rw [write_port, validate_port_eq_none hport, validate_data_int_ok h0 h255,
    intTrunc_intCast, packB_ok h0 h255]

/-- `write_port` on a valid port and out-of-range integer data raises
`InvalidData` having written nothing. -/
theorem write_port_int_bad {port : Char} {n : ℤ} (hport : port.toUpper ∈ ['A', 'B', 'C'])
    (h : n < 0 ∨ 255 < n) :
    write_port port ((n : ℚ)) = ([], some .invalidData) := by
  rw [write_port, validate_port_eq_none hport, validate_data_int_bad h]

/-- Uppercasing a valid designator is idempotent. -/
theorem toUpper_valid_idem {port : Char} (h : port.toUpper ∈ ['A', 'B', 'C']) :
    port.toUpper.toUpper = port.toUpper := by
  simp only [List.mem_cons, List.not_mem_nil, or_false] at h
  rcases h with h | h | h <;> rw [h] <;> decide

/-- `sumMask` over a cons. -/
theorem sumMask_cons (p : ℤ) (pins : List ℤ) :
    sumMask (p :: pins) = 2 ^ (p - 1).toNat + sumMask pins := by
  simp [sumMask]

/-- The direct mask is nonnegative. -/
theorem sumMask_nonneg (pins : List ℤ) : 0 ≤ sumMask pins := by
  induction pins with
  | nil => simp [sumMask]
  | cons p rest ih =>
    rw [sumMask_cons]
    have : (0 : ℤ) ≤ 2 ^ (p - 1).toNat := pow_nonneg (by norm_num) _
    omega

/-- A duplicate-free pin list inside `[1, 8]` has direct mask at most 255:
the mask is a sum of distinct powers of two among `2^0, …, 2^7`. -/
theorem sumMask_le_255 (pins : List ℤ) (hnd : pins.Nodup)
    (hmem : ∀ p ∈ pins, 1 ≤ p ∧ p ≤ 8) : sumMask pins ≤ 255 := by
  have h1 : pins.toFinset.sum (fun p => (2 : ℤ) ^ (p - 1).toNat) = sumMask pins :=
    List.sum_toFinset _ hnd
  have hsub : pins.toFinset ⊆ Finset.Icc (1 : ℤ) 8 := by
    intro x hx
    rw [List.mem_toFinset] at hx
    exact Finset.mem_Icc.mpr (hmem x hx)
  have h2 : pins.toFinset.sum (fun p => (2 : ℤ) ^ (p - 1).toNat)
      ≤ (Finset.Icc (1 : ℤ) 8).sum (fun p => (2 : ℤ) ^ (p - 1).toNat) :=
    Finset.sum_le_sum_of_subset_of_nonneg hsub (fun i _ _ => pow_nonneg (by norm_num) _)
  have h3 : (Finset.Icc (1 : ℤ) 8).sum (fun p => (2 : ℤ) ^ (p - 1).toNat) = 255 := by decide
  omega

/-- When every pin is valid, the direction-mask loop returns the starting
accumulator plus the direct mask. -/
theorem pinMaskLoop_ok (pins : List ℤ) (hmem : ∀ p ∈ pins, 1 ≤ p ∧ p ≤ 8) :
    ∀ acc : ℤ, pinMaskLoop acc pins = .ok (acc + sumMask pins) := by
  induction pins with
  | nil => intro acc; simp [pinMaskLoop, sumMask]
  | cons p rest ih =>
    intro acc
    obtain ⟨h1, h8⟩ := hmem p (by simp)
    rw [pinMaskLoop, validate_pin_eq_none h1 h8]
    rw [ih (fun q hq => hmem q (by simp [hq])) (acc + 2 ^ (p - 1).toNat), sumMask_cons]
    rw [add_assoc]

/-- When every pin is valid, the inverted-mask loop returns the starting
accumulator minus the direct mask. -/
theorem invertedMaskLoop_ok (pins : List ℤ) (hmem : ∀ p ∈ pins, 1 ≤ p ∧ p ≤ 8) :
    ∀ acc : ℤ, invertedMaskLoop acc pins = .ok (acc - sumMask pins) := by
  induction pins with
  | nil => intro acc; simp [invertedMaskLoop, sumMask]
  | cons p rest ih =>
    intro acc
    obtain ⟨h1, h8⟩ := hmem p (by simp)
    rw [invertedMaskLoop, validate_pin_eq_none h1 h8]
    rw [ih (fun q hq => hmem q (by simp [hq])) (acc - 2 ^ (p - 1).toNat), sumMask_cons]
    ring_nf

/-- `2 ** (r - 1)` is the integer power when `r ≥ 1`. -/
theorem pyPow2_sub_one {r : ℤ} (h : 1 ≤ r) :
    pyPow2 (r - 1) = ((2 ^ (r - 1).toNat : ℤ) : ℚ) := by
  rw [pyPow2, if_pos (by omega)]

/-- When every relay index is at least 1, the (unvalidated) relay-mask
loop computes the integer direct mask. -/
theorem relayMaskLoop_int (relays : List ℤ) (hmem : ∀ r ∈ relays, 1 ≤ r) :
    ∀ acc : ℤ, relayMaskLoop ((acc : ℚ)) relays = (((acc + sumMask relays : ℤ)) : ℚ) := by
  induction relays with
  | nil => intro acc; simp [relayMaskLoop, sumMask]
  | cons r rest ih =>
    intro acc
    have h1 : 1 ≤ r := hmem r (by simp)
    rw [relayMaskLoop, pyPow2_sub_one h1]
    rw [show ((acc : ℚ) + ((2 ^ (r - 1).toNat : ℤ) : ℚ))
        = (((acc + 2 ^ (r - 1).toNat : ℤ)) : ℚ) by push_cast; ring]
    rw [ih (fun q hq => hmem q (by simp [hq])), sumMask_cons]
    congr 1
    ring

/-- C8: constructing a device-driver instance unconditionally issues
Set Mode(1) as the first frame written to the transport — a single byte
with value 1 — and raises nothing. -/
theorem c8_init_sends_set_mode_one :
    iomodule_init = ([1], none) ∧ set_mode 1 = ([1], none) := by
  constructor <;> rfl

/-- C3: for every port whose uppercase form is in {A, B, C} and every
integer data value in [0, 255], Write Port sends exactly the 2-byte frame
[uppercase port letter, data] and Read Port sends exactly the 1-byte frame
[lowercase port letter] and returns the transport's single response byte —
an unsigned integer in [0, 255] — unchanged. -/
theorem c3_write_read_frames (port : Char) (data : ℤ) (response : Nat)
    (hport : port.toUpper ∈ ['A', 'B', 'C']) (h0 : 0 ≤ data) (h255 : data ≤ 255)
    (hresp : response ≤ 255) :
    write_port port ((data : ℚ)) = ([port.toUpper.toNat, data.toNat], none) ∧
    read_port port response = ([port.toLower.toNat], .ok response) ∧
    response ≤ 255 := by
  refine ⟨write_port_int_ok hport h0 h255, ?_, hresp⟩
  rw [read_port, validate_port_eq_none hport]

/-- Witness for C3 at the spec's own instances: Write Port('A', 0) sends
['A', 0x00]; Read Port('a') returning byte 0x05 yields 5 after sending
['a']. -/
theorem c3_witness :
    write_port 'A' (((0 : ℤ)) : ℚ) = ([65, 0], none) ∧
    read_port 'a' 5 = ([97], .ok 5) := by
  obtain ⟨hw, -, -⟩ := c3_write_read_frames 'A' 0 5 (by decide) (by decide) (by decide) (by decide)
  obtain ⟨-, hr, -⟩ := c3_write_read_frames 'a' 0 5 (by decide) (by decide) (by decide) (by decide)
  constructor
  · rw [hw]; decide
  · rw [hr]; rfl

/-- C4: for every valid port and pin in [1, 8], Set Pin High sends exactly
['H', base(port) + pin − 1] and Set Pin Low sends ['L', base(port) + pin − 1]
with base(A) = 0, base(B) = 8, base(C) = 16; the Global Pin Index satisfies
globalPinIndex('A',1) = 0, globalPinIndex('B',1) = 8,
globalPinIndex('C',8) = 23 and always lies in [0, 23]. -/
theorem c4_pin_frames (port : Char) (pin : ℤ)
    (hport : port.toUpper ∈ ['A', 'B', 'C']) (h1 : 1 ≤ pin) (h8 : pin ≤ 8) :
    set_pin_high port pin = (['H'.toNat, (globalPinIndex port pin).toNat], none) ∧
    set_pin_low port pin = (['L'.toNat, (globalPinIndex port pin).toNat], none) ∧
    0 ≤ globalPinIndex port pin ∧ globalPinIndex port pin ≤ 23 ∧
    globalPinIndex 'A' 1 = 0 ∧ globalPinIndex 'B' 1 = 8 ∧ globalPinIndex 'C' 8 = 23 := by
  have hbase : portBase port = 0 ∨ portBase port = 8 ∨ portBase port = 16 := by
    simp only [List.mem_cons, List.not_mem_nil, or_false] at hport
    rcases hport with h | h | h <;> simp [portBase, h]
  have hg0 : 0 ≤ globalPinIndex port pin := by
    unfold globalPinIndex; rcases hbase with h | h | h <;> rw [h] <;> omega
  have hg23 : globalPinIndex port pin ≤ 23 := by
    unfold globalPinIndex; rcases hbase with h | h | h <;> rw [h] <;> omega
  refine ⟨?_, ?_, hg0, hg23, by decide, by decide, by decide⟩
  · rw [set_pin_high, validate_port_eq_none hport, validate_pin_eq_none h1 h8,
      packB_ok hg0 (by omega)]
  · rw [set_pin_low, validate_port_eq_none hport, validate_pin_eq_none h1 h8,
      packB_ok hg0 (by omega)]

/-- Witness for C4 at port 'C', pin 8: frames ['H', 23] and ['L', 23]. -/
theorem c4_witness :
    set_pin_high 'C' 8 = ([72, 23], none) ∧ set_pin_low 'C' 8 = ([76, 23], none) := by
  obtain ⟨h1, h2, -⟩ := c4_pin_frames 'C' 8 (by decide) (by decide) (by decide)
  exact ⟨by rw [h1]; decide, by rw [h2]; decide⟩

/-- C5: for every list of pins each in [1, 8], the Set Pin Direction
convenience loop computes the direct mask Σ 2^(pin−1) while the loop shared
by Port Pull-Up, Set Threshold and Schmitt Trigger computes the inverted
mask 255 − Σ 2^(pin−1); for the same pin list the two computed arguments
are related by arg_inverted = 255 − arg_direct. -/
theorem c5_mask_duality (pins : List ℤ) (hmem : ∀ p ∈ pins, 1 ≤ p ∧ p ≤ 8) :
    pinMaskLoop 0 pins = .ok (sumMask pins) ∧
    invertedMaskLoop 255 pins = .ok (255 - sumMask pins) := by
  constructor
  · rw [pinMaskLoop_ok pins hmem 0, zero_add]
  · exact invertedMaskLoop_ok pins hmem 255

/-- Witness for C5 at the pin list [1, 3]: direct mask 5, inverted mask
250 = 255 − 5. -/
theorem c5_witness :
    pinMaskLoop 0 [1, 3] = .ok 5 ∧ invertedMaskLoop 255 [1, 3] = .ok 250 := by
  obtain ⟨h1, h2⟩ := c5_mask_duality [1, 3] (by decide)
  constructor
  · rw [h1, show sumMask [1, 3] = 5 by decide]
  · rw [h2, show (255 : ℤ) - sumMask [1, 3] = 250 by decide]

/-- C7: constructing a Relay Abstraction bound to a valid port sends,
before any other relay operation, exactly one Set Pin Direction frame
['!', uppercase port letter, 0x00], and stores the uppercased port. -/
theorem c7_relay_init_frame (port : Char) (hport : port.toUpper ∈ ['A', 'B', 'C']) :
    (relayModule_init port).2 = (['!'.toNat, port.toUpper.toNat, 0], none) ∧
    (relayModule_init port).1 = ⟨port.toUpper⟩ := by
  have hupmem : port.toUpper.toUpper ∈ ['A', 'B', 'C'] := by
    rw [toUpper_valid_idem hport]; exact hport
  constructor
  · show set_pin_direction port.toUpper [] = _
    have hp0 : packB 0 = .ok (0 : ℤ).toNat := packB_ok le_rfl (by norm_num)
    simp only [set_pin_direction, validate_port_eq_none hupmem,
      show pinMaskLoop 0 ([] : List ℤ) = .ok 0 from rfl,
      set_pin_direction_raw, hp0, toUpper_valid_idem hport]
    rfl
  · rfl

/-- Witness for C7 at port 'b': the construction frame is
['!', 'B', 0x00] = [33, 66, 0]. -/
theorem c7_witness : (relayModule_init 'b').2 = ([33, 66, 0], none) := by
  obtain ⟨h, -⟩ := c7_relay_init_frame 'b' (by decide)
  rw [h]; decide

/-- C9: for every valid port and duplicate-free list of pins each in
[1, 8], the direct mask lies in [0, 255] and the 3-byte direction frame is
sent well-formed; with a duplicate ([8, 8]) the sum exceeds 255 and frame
construction fails with the low-level byte-packing error (struct.error),
not InvalidData, since the raw form performs no data-range validation. -/
theorem c9_direction_mask_wellformed (port : Char) (pins : List ℤ)
    (hport : port.toUpper ∈ ['A', 'B', 'C']) (hnd : pins.Nodup)
    (hmem : ∀ p ∈ pins, 1 ≤ p ∧ p ≤ 8) :
    0 ≤ sumMask pins ∧ sumMask pins ≤ 255 ∧
    set_pin_direction port pins
      = (['!'.toNat, port.toUpper.toNat, (sumMask pins).toNat], none) ∧
    set_pin_direction 'A' [8, 8] = ([], some .structError) := by
  have h0 := sumMask_nonneg pins
  have h255 := sumMask_le_255 pins hnd hmem
  refine ⟨h0, h255, ?_, by decide⟩
  simp only [set_pin_direction, validate_port_eq_none hport, pinMaskLoop_ok pins hmem 0,
    zero_add, set_pin_direction_raw, packB_ok h0 h255]

/-- Witness for C9 at port 'A', pins [1, 2, 8]: mask 131, frame
['!', 'A', 131] = [33, 65, 131]. -/
theorem c9_witness :
    set_pin_direction 'A' [1, 2, 8] = ([33, 65, 131], none) := by
  obtain ⟨-, -, h, -⟩ := c9_direction_mask_wellformed 'A' [1, 2, 8] (by decide) (by decide) (by decide)
  rw [h]; decide

/-- C10: for every valid port and duplicate-free list of pins each in
[1, 8], the inverted mask 255 − Σ 2^(pin−1) of the Port Pull-Up, Set
Threshold and Schmitt Trigger convenience forms lies in [0, 255] and the
corresponding frames are sent; with the duplicate list [8, 8] the computed
value is negative and the call raises InvalidData even though every pin
individually passed pin validation. -/
theorem c10_inverted_mask_wellformed (port : Char) (pins : List ℤ)
    (hport : port.toUpper ∈ ['A', 'B', 'C']) (hnd : pins.Nodup)
    (hmem : ∀ p ∈ pins, 1 ≤ p ∧ p ≤ 8) :
    0 ≤ 255 - sumMask pins ∧ 255 - sumMask pins ≤ 255 ∧
    port_pull_up port pins
      = (['#'.toNat, port.toUpper.toNat, (255 - sumMask pins).toNat], none) ∧
    set_threshold_high port pins
      = (['@'.toNat, port.toUpper.toNat, (255 - sumMask pins).toNat], none) ∧
    schmitt_trigger port pins
      = (['$'.toNat, port.toUpper.toNat, (255 - sumMask pins).toNat], none) ∧
    port_pull_up 'A' [8, 8] = (['#'.toNat], some .invalidData) := by
  have h0 := sumMask_nonneg pins
  have h255 := sumMask_le_255 pins hnd hmem
  have hbad : invertedMaskLoop 255 [(8 : ℤ), 8] = .ok (-1) := rfl
  have hw : write_port port (((255 - sumMask pins : ℤ)) : ℚ)
      = ([port.toUpper.toNat, (255 - sumMask pins).toNat], none) :=
    write_port_int_ok hport (by omega) (by omega)
  have hwbad : write_port 'A' (((-1 : ℤ)) : ℚ) = ([], some .invalidData) :=
    @write_port_int_bad 'A' (-1) (by decide) (by norm_num)
  refine ⟨by omega, by omega, ?_, ?_, ?_, ?_⟩
  · simp only [port_pull_up, invertedMaskLoop_ok pins hmem 255, port_pull_up_raw,
      validate_port_eq_none hport, hw]
  · simp only [set_threshold_high, invertedMaskLoop_ok pins hmem 255, set_threshold_raw,
      validate_port_eq_none hport, hw]
  · simp only [schmitt_trigger, invertedMaskLoop_ok pins hmem 255, schmitt_trigger_raw,
      validate_port_eq_none hport, hw]
  · simp only [port_pull_up, hbad, port_pull_up_raw,
      @validate_port_eq_none 'A' (by decide), hwbad]

/-- Witness for C10 at port 'A', pin list [1]: inverted mask 254, frames
['#'|'@'|'$', 'A', 254]. -/
theorem c10_witness :
    port_pull_up 'A' [1] = ([35, 65, 254], none) ∧
    set_threshold_high 'A' [1] = ([64, 65, 254], none) ∧
    schmitt_trigger 'A' [1] = ([36, 65, 254], none) := by
  obtain ⟨-, -, h1, h2, h3, -⟩ :=
    c10_inverted_mask_wellformed 'A' [1] (by decide) (by decide) (by decide)
  exact ⟨by rw [h1]; decide, by rw [h2]; decide, by rw [h3]; decide⟩

/-- C6: on a Relay Abstraction bound to a valid port, Set State with a
duplicate-free list of relays in [1, 8] issues exactly one Write Port call
whose data byte is the mask Σ 2^(relay−1) — overwriting the entire port —
and Reset issues exactly one Write Port call whose data byte is 0. -/
theorem c6_set_state_frames (port : Char) (relays : List ℤ)
    (hport : port.toUpper ∈ ['A', 'B', 'C']) (hnd : relays.Nodup)
    (hmem : ∀ r ∈ relays, 1 ≤ r ∧ r ≤ 8) :
    relay_set_state (relayModule_init port).1 relays
      = ([port.toUpper.toNat, (sumMask relays).toNat], none) ∧
    relay_reset (relayModule_init port).1 = ([port.toUpper.toNat, 0], none) := by
  have hupmem : port.toUpper.toUpper ∈ ['A', 'B', 'C'] := by
    rw [toUpper_valid_idem hport]; exact hport
  have h0 := sumMask_nonneg relays
  have h255 := sumMask_le_255 relays hnd hmem
  have hml := relayMaskLoop_int relays (fun r hr => (hmem r hr).1) 0
  rw [Int.cast_zero, zero_add] at hml
  have hw : write_port port.toUpper (((sumMask relays : ℤ)) : ℚ)
      = ([port.toUpper.toUpper.toNat, (sumMask relays).toNat], none) :=
    write_port_int_ok hupmem h0 h255
  have hml0 : relayMaskLoop 0 ([] : List ℤ) = (((0 : ℤ)) : ℚ) := by
    rw [show relayMaskLoop 0 ([] : List ℤ) = (0 : ℚ) from rfl, Int.cast_zero]
  have hw0 : write_port port.toUpper (((0 : ℤ)) : ℚ)
      = ([port.toUpper.toUpper.toNat, (0 : ℤ).toNat], none) :=
    write_port_int_ok hupmem le_rfl (by norm_num)
  constructor
  · show write_port port.toUpper (relayMaskLoop 0 relays) = _
    rw [hml, hw, toUpper_valid_idem hport]
  · show write_port port.toUpper (relayMaskLoop 0 ([] : List ℤ)) = _
    rw [hml0, hw0, toUpper_valid_idem hport]
    rfl

/-- Witness for C6 at port 'B': Set State([1, 8]) sends one frame
['B', 129] and Reset() sends one frame ['B', 0]. -/
theorem c6_witness :
    relay_set_state (relayModule_init 'B').1 [1, 8] = ([66, 129], none) ∧
    relay_reset (relayModule_init 'B').1 = ([66, 0], none) := by
  obtain ⟨h1, h2⟩ := c6_set_state_frames 'B' [1, 8] (by decide) (by decide) (by decide)
  constructor
  · rw [h1]; decide
  · rw [h2]; decide

/-- C1 counterexample: the raw Port Pull-Up operation at valid port 'A' and
out-of-range data 256 raises InvalidData having already transmitted the
lone selector byte '#' (35) — not zero bytes as the claim states. -/
theorem c1_counterexample :
    port_pull_up_raw 'A' (((256 : ℤ)) : ℚ) = ([35], some UsbError.invalidData) ∧
    (port_pull_up_raw 'A' (((256 : ℤ)) : ℚ)).1 ≠ [] := by
  have hw : write_port 'A' (((256 : ℤ)) : ℚ) = ([], some .invalidData) :=
    @write_port_int_bad 'A' 256 (by decide) (by norm_num)
  have h : port_pull_up_raw 'A' (((256 : ℤ)) : ℚ) = (['#'.toNat], some .invalidData) := by
    simp only [port_pull_up_raw, @validate_port_eq_none 'A' (by decide), hw]
  exact ⟨by rw [h]; decide, by rw [h]; decide⟩

/-- C1 (amended): port validation failures are raised before any byte is
written — for every invalid port, the raw Port Pull-Up, Set Threshold, and
Schmitt Trigger operations fail with InvalidPort having written zero
bytes; but for every valid port and every integer data argument outside
[0, 255], they fail with InvalidData having written exactly one byte — the
selector byte '#', '@' or '$' — so a lone selector byte (a partial frame)
IS transmitted by these three raw operations. -/
theorem c1_amended (port badport : Char) (data : ℤ)
    (hport : port.toUpper ∈ ['A', 'B', 'C']) (hbad : badport.toUpper ∉ ['A', 'B', 'C'])
    (hdata : data < 0 ∨ 255 < data) :
    port_pull_up_raw badport ((data : ℚ)) = ([], some .invalidPort) ∧
    set_threshold_raw badport ((data : ℚ)) = ([], some .invalidPort) ∧
    schmitt_trigger_raw badport ((data : ℚ)) = ([], some .invalidPort) ∧
    port_pull_up_raw port ((data : ℚ)) = (['#'.toNat], some .invalidData) ∧
    set_threshold_raw port ((data : ℚ)) = (['@'.toNat], some .invalidData) ∧
    schmitt_trigger_raw port ((data : ℚ)) = (['$'.toNat], some .invalidData) := by
  have hw : write_port port ((data : ℚ)) = ([], some .invalidData) :=
    write_port_int_bad hport hdata
  refine ⟨?_, ?_, ?_, ?_, ?_, ?_⟩ <;>
    simp only [port_pull_up_raw, set_threshold_raw, schmitt_trigger_raw,
      validate_port_eq_some hbad, validate_port_eq_none hport, hw]

/-- Witness for the amended C1 at valid port 'A', invalid port 'x', data
256: on the invalid port each raw operation raises InvalidPort having
written nothing; on the valid port each transmits exactly its selector
byte before raising InvalidData. -/
theorem c1_witness :
    port_pull_up_raw 'x' (((256 : ℤ)) : ℚ) = ([], some UsbError.invalidPort) ∧
    set_threshold_raw 'x' (((256 : ℤ)) : ℚ) = ([], some UsbError.invalidPort) ∧
    schmitt_trigger_raw 'x' (((256 : ℤ)) : ℚ) = ([], some UsbError.invalidPort) ∧
    port_pull_up_raw 'A' (((256 : ℤ)) : ℚ) = ([35], some UsbError.invalidData) ∧
    set_threshold_raw 'A' (((256 : ℤ)) : ℚ) = ([64], some UsbError.invalidData) ∧
    schmitt_trigger_raw 'A' (((256 : ℤ)) : ℚ) = ([36], some UsbError.invalidData) := by
  obtain ⟨h1, h2, h3, h4, h5, h6⟩ := c1_amended 'A' 'x' 256 (by decide) (by decide) (by norm_num)
  exact ⟨h1, h2, h3, by rw [h4]; decide, by rw [h5]; decide, by rw [h6]; decide⟩

/-- The `set_state` accumulator on the single out-of-range relay 9 is the
integer 256 = 2^8. -/
theorem relayMaskLoop_nine : relayMaskLoop 0 [(9 : ℤ)] = (((256 : ℤ)) : ℚ) := by
  show (0 : ℚ) + pyPow2 ((9 : ℤ) - 1) = (((256 : ℤ)) : ℚ)
  rw [pyPow2, if_pos (by norm_num), show (((9 : ℤ)) - 1).toNat = 8 from rfl]
  norm_num

/-- The `set_state` accumulator on the single out-of-range relay 0 is the
Python 2 float `2 ** -1` = 0.5. -/
theorem relayMaskLoop_zero_pin : relayMaskLoop 0 [(0 : ℤ)] = (1 / 2 : ℚ) := by
  show (0 : ℚ) + pyPow2 ((0 : ℤ) - 1) = (1 / 2 : ℚ)
  rw [pyPow2, if_neg (by norm_num), show (-(((0 : ℤ)) - 1)).toNat = 1 from rfl]
  norm_num

/-- Python `int(0.5)` is 0. -/
theorem intTrunc_half : intTrunc (1 / 2 : ℚ) = 0 := by
  rw [intTrunc, if_pos (by norm_num)]
  exact Int.floor_eq_zero_iff.mpr (Set.mem_Ico.mpr ⟨by norm_num, by norm_num⟩)

/-- `RelayModule.set_state([9])` raises InvalidData (mask 256 fails data
validation inside `write_port`), not InvalidPin. -/
theorem relay_set_state_nine :
    relay_set_state ⟨'A'⟩ [9] = ([], some UsbError.invalidData) := by
  show write_port 'A' (relayMaskLoop 0 [9]) = _
  rw [relayMaskLoop_nine, @write_port_int_bad 'A' 256 (by decide) (by norm_num)]

/-- `RelayModule.set_state([0])` raises nothing at all: the accumulator is
the float 0.5, `int(0.5)` = 0 passes data validation, and the frame
['A', 0] is written. -/
theorem relay_set_state_zero_relay :
    relay_set_state ⟨'A'⟩ [0] = ([65, 0], none) := by
  show write_port 'A' (relayMaskLoop 0 [0]) = _
  rw [relayMaskLoop_zero_pin]
  have hvd : validate_data (1 / 2 : ℚ) = none := by
    rw [validate_data, intTrunc_half]
    norm_num
  have hpb : packB 0 = .ok (0 : ℤ).toNat := packB_ok le_rfl (by norm_num)
  simp only [write_port, @validate_port_eq_none 'A' (by decide), hvd, intTrunc_half, hpb]
  rfl

/-- C2 counterexample: `RelayModule.set_state` performs no pin validation:
Set State([9]) raises InvalidData (not InvalidPin, though it does write
nothing), and Set State([0]) raises nothing at all and writes the frame
['A', 0] — contradicting the claim that every pin-taking operation,
including Set State, fails with InvalidPin on pins outside [1, 8]. -/
theorem c2_counterexample :
    relay_set_state ⟨'A'⟩ [9] = ([], some UsbError.invalidData) ∧
    relay_set_state ⟨'A'⟩ [0] = ([65, 0], none) :=
  ⟨relay_set_state_nine, relay_set_state_zero_relay⟩

/-- C2 (amended): for every valid port and every pin outside [1, 8], each
pin-taking operation of the device driver — Set Pin High, Set Pin Low, and
the convenience forms Set Pin Direction, Port Pull-Up, Set Threshold and
Schmitt Trigger — fails with InvalidPin and performs no transport write;
but the Relay Abstraction's Set State validates nothing: Set State([9])
fails with InvalidData (mask 256 out of byte range, zero writes) and
Set State([0]) succeeds, writing data byte 0 (from int(2**−1) = 0). -/
theorem c2_amended (port : Char) (pin : ℤ)
    (hport : port.toUpper ∈ ['A', 'B', 'C']) (hpin : pin < 1 ∨ 8 < pin) :
    set_pin_high port pin = ([], some .invalidPin) ∧
    set_pin_low port pin = ([], some .invalidPin) ∧
    set_pin_direction port [pin] = ([], some .invalidPin) ∧
    port_pull_up port [pin] = ([], some .invalidPin) ∧
    set_threshold_high port [pin] = ([], some .invalidPin) ∧
    schmitt_trigger port [pin] = ([], some .invalidPin) ∧
    relay_set_state ⟨'A'⟩ [9] = ([], some UsbError.invalidData) ∧
    relay_set_state ⟨'A'⟩ [0] = ([65, 0], none) := by
  have hvp := validate_pin_eq_some hpin
  have hloop : pinMaskLoop 0 [pin] = .error .invalidPin := by
    simp only [pinMaskLoop, hvp]
  have hloop2 : invertedMaskLoop 255 [pin] = .error .invalidPin := by
    simp only [invertedMaskLoop, hvp]
  refine ⟨?_, ?_, ?_, ?_, ?_, ?_, relay_set_state_nine, relay_set_state_zero_relay⟩
  · simp only [set_pin_high, validate_port_eq_none hport, hvp]
  · simp only [set_pin_low, validate_port_eq_none hport, hvp]
  · simp only [set_pin_direction, validate_port_eq_none hport, hloop]
  · simp only [port_pull_up, hloop2]
  · simp only [set_threshold_high, hloop2]
  · simp only [schmitt_trigger, hloop2]

/-- Witness for the amended C2 at port 'A', pin 9. -/
theorem c2_witness :
    set_pin_high 'A' 9 = ([], some UsbError.invalidPin) ∧
    port_pull_up 'A' [9] = ([], some UsbError.invalidPin) := by
  obtain ⟨h1, -, -, h4, -⟩ := c2_amended 'A' 9 (by decide) (by norm_num)
  exact ⟨h1, h4⟩
